import Mathlib

/-!
Verification of the CodeSage AI core against its specification.

The development shallowly embeds the three core components of the
`ai-service` package:

* `utils/diff_analyzer.py` — the unified-diff parser and its derived
  operations (`parse_diff`, `get_changed_line_ranges`);
* `app/services/pattern_detector.py` — the regex-based anti-pattern
  detection engine (`detect_patterns` and the rule table);
* `app/services/embedding_service.py` and `app/services/rag_service.py` —
  the embedding cache (`generate_embedding`, `cosine_similarity`) and the
  similarity-retrieval coordinator (`find_similar_patterns`).

Modelling conventions:

* Python strings that are immediately split on a newline
  (`text.split('\n')`) are modelled as the resulting list of lines
  (`List String`); no scanned line ever contains a newline character.
* Python floats are modelled as exact rationals (`ℚ`), except for
  `cosine_similarity`, whose square roots are modelled over the reals.
* Fallible collaborator calls are modelled with an explicit `CallResult`
  type: `.ok v` for a normal return, `.exn` for a raised exception.
* Regular-expression scans are modelled by executable character-list
  matchers with the same match semantics as the concrete pattern.
-/

set_option maxHeartbeats 1000000

namespace Codesage

/-! ### Character and string helpers (Python string semantics) -/

/-- Python whitespace (the default of `str.strip` and the ASCII part of the
regex class for whitespace): space, tab, newline, carriage return,
vertical tab, form feed. -/
def pyIsSpace (c : Char) : Bool :=
  c == ' ' || c == '\t' || c == '\n' || c == '\r' || c == '\x0b' || c == '\x0c'

/-- `startsWithChars p cs` holds when `p` is a leading segment of `cs`
(Python `str.startswith`, anchored regex match). -/
def startsWithChars : List Char → List Char → Bool
  | [], _ => true
  | _ :: _, [] => false
  | p :: ps, c :: cs => p == c && startsWithChars ps cs

/-- Python `s.startswith(p)`. -/
def pyStartsWith (s p : String) : Bool := startsWithChars p.data s.data

/-- Python `s[1:]` (used by the diff parser to strip the `+`/`-`/space marker). -/
def strTail (s : String) : String := ⟨s.data.drop 1⟩

/-- Python `s.strip()`: remove leading and trailing whitespace. -/
def pyStrip (s : String) : String :=
  ⟨((s.data.dropWhile pyIsSpace).reverse.dropWhile pyIsSpace).reverse⟩

/-- Python falsiness test `not s or not s.strip()` for a string:
true when the string is empty or whitespace-only. -/
def pyIsBlank (s : String) : Bool := s.data.all pyIsSpace

/-- Python `s.lower()` (ASCII case folding, applied character-wise). -/
def pyLower (s : String) : String := ⟨s.data.map Char.toLower⟩

/-- Substring containment (Python `p in s` for a non-empty pattern `p`). -/
def hasSub (p : List Char) : List Char → Bool
  | [] => startsWithChars p []
  | c :: t => startsWithChars p (c :: t) || hasSub p t

/-- `anyPos f cs` holds when `f` accepts some suffix of `cs`
(unanchored regex search over start positions). -/
def anyPos (f : List Char → Bool) : List Char → Bool
  | [] => f []
  | c :: t => f (c :: t) || anyPos f t

/-- Unanchored search that also tracks the character immediately before the
candidate start position (needed for word-boundary lookbehind). -/
def anyPosPrev (f : Option Char → List Char → Bool) : Option Char → List Char → Bool
  | prev, [] => f prev []
  | prev, c :: t => f prev (c :: t) || anyPosPrev f (some c) t

/-- Drop leading whitespace (greedy match of a whitespace-star fragment). -/
def dropSpaces (cs : List Char) : List Char := cs.dropWhile pyIsSpace

/-! ### Diff parser (`utils/diff_analyzer.py`) -/

/-- `DiffChunk.__init__`: one contiguous hunk of a unified diff, with the
three `(line_number, content)` sequences filled in while scanning. -/
structure DiffChunk where
  file_path : String
  old_start : Nat
  old_count : Nat
  new_start : Nat
  new_count : Nat
  added_lines : List (Nat × String)
  removed_lines : List (Nat × String)
  context_lines : List (Nat × String)
deriving DecidableEq, Repr

/-- Numeric value of a digit run (`int(...)` on the captured group). -/
def digitsVal (ds : List Char) : Nat :=
  ds.foldl (fun a c => 10 * a + (c.toNat - 48)) 0

/-- Greedy match of a one-or-more-digits group: returns its value and the
rest of the input, or `none` when no digit is present. -/
def takeDigits (cs : List Char) : Option (Nat × List Char) :=
  let ds := cs.takeWhile Char.isDigit
  if ds.isEmpty then none else some (digitsVal ds, cs.dropWhile Char.isDigit)

/-- Optional `,<digits>` group of the hunk-header pattern.  When the comma is
not followed by a digit the group does not participate in the match and the
input is left untouched (the regex engine cannot backtrack into a success
here because the following mandatory character is not a comma). -/
def optCount : List Char → Option Nat × List Char
  | ',' :: rest =>
    match takeDigits rest with
    | some (v, r) => (some v, r)
    | none => (none, ',' :: rest)
  | cs => (none, cs)

/-- Tail of the hunk-header match after the literal `@@ -` prefix:
digits, optional `,digits`, ` +`, digits, optional `,digits`, ` @@`.
Omitted counts default to 1 as in `parse_diff`. -/
def parseHunkAfterDash (cs : List Char) : Option (Nat × Nat × Nat × Nat) :=
  match takeDigits cs with
  | none => none
  | some (os, r1) =>
    let p1 := optCount r1
    if startsWithChars [' ', '+'] p1.2 then
      match takeDigits (p1.2.drop 2) with
      | none => none
      | some (ns, r3) =>
        let p2 := optCount r3
        if startsWithChars [' ', '@', '@'] p2.2 then
          some (os, p1.1.getD 1, ns, p2.1.getD 1)
        else none
    else none

/-- `chunk_header_pattern.match(line)` followed by the defaulting in
`parse_diff`: returns `(old_start, old_count, new_start, new_count)`. -/
def parseChunkHeader (line : String) : Option (Nat × Nat × Nat × Nat) :=
  if startsWithChars ['@', '@', ' ', '-'] line.data then
    parseHunkAfterDash (line.data.drop 4)
  else none

/-- Guard for an added line: `line.startswith('+') and not line.startswith('+++')`. -/
def isAddLine (l : String) : Bool := pyStartsWith l "+" && !pyStartsWith l "+++"

/-- Guard for a removed line: `line.startswith('-') and not line.startswith('---')`. -/
def isRemLine (l : String) : Bool := pyStartsWith l "-" && !pyStartsWith l "---"

/-- Guard for a context line: `line.startswith(' ')`. -/
def isCtxLine (l : String) : Bool := pyStartsWith l " "

/-- The mutable loop state of `DiffAnalyzer.parse_diff`. -/
structure ParseState where
  chunks : List DiffChunk
  current_file : Option String
  current_chunk : Option DiffChunk
  old_line : Nat
  new_line : Nat
deriving Repr

/-- One iteration of the scanning loop of `parse_diff`, in source order:
new-file header, hunk header, guard on an open chunk, then the
added/removed/context line cases. -/
def parseStep (st : ParseState) (line : String) : ParseState :=
  if pyStartsWith line "+++ b/" then
    { st with current_file := some ⟨line.data.drop 6⟩ }
  else
    match parseChunkHeader line with
    | some (os, oc, ns, nc) =>
      { chunks := st.chunks ++ st.current_chunk.toList
        current_file := st.current_file
        current_chunk := some
          { file_path := st.current_file.getD ""
            old_start := os, old_count := oc
            new_start := ns, new_count := nc
            added_lines := [], removed_lines := [], context_lines := [] }
        old_line := os
        new_line := ns }
    | none =>
      match st.current_chunk with
      | none => st
      | some c =>
        if isAddLine line then
          { st with
            current_chunk := some
              { c with added_lines := c.added_lines ++ [(st.new_line, strTail line)] }
            new_line := st.new_line + 1 }
        else if isRemLine line then
          { st with
            current_chunk := some
              { c with removed_lines := c.removed_lines ++ [(st.old_line, strTail line)] }
            old_line := st.old_line + 1 }
        else if isCtxLine line then
          { st with
            current_chunk := some
              { c with context_lines := c.context_lines ++ [(st.new_line, strTail line)] }
            old_line := st.old_line + 1
            new_line := st.new_line + 1 }
        else st

/-- Initial loop state of `parse_diff`. -/
def initParseState : ParseState :=
  { chunks := [], current_file := none, current_chunk := none, old_line := 0, new_line := 0 }

/-- `DiffAnalyzer.parse_diff`, applied to `diff_text.split('\n')`:
scan every line, then append the final open chunk. -/
def parse_diff (diffLines : List String) : List DiffChunk :=
  let st := diffLines.foldl parseStep initParseState
  st.chunks ++ st.current_chunk.toList

/-- Provisional `(min, max)` added-line range of one chunk
(`min`/`max` over the generator in `get_changed_line_ranges`). -/
def chunkAddedRange (c : DiffChunk) : Option (Nat × Nat) :=
  match c.added_lines.map Prod.fst with
  | [] => none
  | x :: xs => some (xs.foldl Nat.min x, xs.foldl Nat.max x)

/-- The ranges collected by `get_changed_line_ranges` before merging:
one provisional range per chunk of the given file that has added lines. -/
def provisionalRanges (chunks : List DiffChunk) (file_path : String) : List (Nat × Nat) :=
  chunks.filterMap fun c =>
    if c.file_path = file_path then chunkAddedRange c else none

/-- Python tuple comparison used by `ranges.sort()` on `(start, end)` pairs. -/
def rangeLe (a b : Nat × Nat) : Bool :=
  decide (a.1 < b.1) || (decide (a.1 = b.1) && decide (a.2 ≤ b.2))

/-- Ordered insertion for the model of `list.sort()`. -/
def insertRange (r : Nat × Nat) : List (Nat × Nat) → List (Nat × Nat)
  | [] => [r]
  | x :: xs => if rangeLe r x then r :: x :: xs else x :: insertRange r xs

/-- Model of `ranges.sort()`: sort by start, then by end. -/
def sortRanges : List (Nat × Nat) → List (Nat × Nat)
  | [] => []
  | x :: xs => insertRange x (sortRanges xs)

/-- One iteration of the merging loop, with the accumulator kept in reverse
so that `merged[-1]` is the head: an overlapping or adjacent range
(`start <= last_end + 1`) widens the last merged range, any other range is
appended. -/
def mergeStepRev (acc : List (Nat × Nat)) (r : Nat × Nat) : List (Nat × Nat) :=
  match acc with
  | [] => [r]
  | last :: tl =>
    if r.1 ≤ last.2 + 1 then (last.1, Nat.max r.2 last.2) :: tl
    else r :: last :: tl

/-- The sort-and-merge phase of `get_changed_line_ranges`. -/
def mergeRanges (rs : List (Nat × Nat)) : List (Nat × Nat) :=
  match sortRanges rs with
  | [] => []
  | r :: rest => (rest.foldl mergeStepRev [r]).reverse

/-- `DiffAnalyzer.get_changed_line_ranges`, applied to the line list of the
diff text. -/
def get_changed_line_ranges (diffLines : List String) (file_path : String) :
    List (Nat × Nat) :=
  mergeRanges (provisionalRanges (parse_diff diffLines) file_path)

/-! ### Pattern detector (`app/services/pattern_detector.py`) -/

/-- The `PatternMatch` dataclass.  The float confidence is modelled as an
exact rational. -/
structure PatternMatch where
  pattern_type : String
  severity : String
  message : String
  line_number : Nat
  code_snippet : String
  confidence : ℚ
deriving DecidableEq, Repr

/-- Python `enumerate(lines, 1)`. -/
def enum1 (lines : List String) : List (Nat × String) :=
  lines.enum.map fun p => (p.1 + 1, p.2)

/-- A word character for the word-boundary and word-class fragments
(letters, digits, underscore). -/
def isWordChar (c : Char) : Bool := c.isAlphanum || c == '_'

/-- Word-boundary lookbehind: the position starts the string or follows a
non-word character (the following character is always a word character at
the call sites). -/
def boundaryOk : Option Char → Bool
  | none => true
  | some c => !isWordChar c

/-- Case-insensitive anchored match of a lowercase pattern. -/
def ciStartsWith : List Char → List Char → Bool
  | [], _ => true
  | _ :: _, [] => false
  | p :: ps, c :: cs => p == c.toLower && ciStartsWith ps cs

/-- A single or double quote (the character class of the credential and SQL
patterns). -/
def isQuote (c : Char) : Bool := c == '"' || c == '\''

/-! Java-specific detectors (`_detect_java_patterns`). -/

/-- The look-ahead slice of the empty-catch heuristic:
`lines[i:i+3] if i < len(lines) - 3 else lines[i:]` with `i` the 1-based
line index, so the slice holds the lines after the current one. -/
def javaNextLines (lines : List String) (i : Nat) : List String :=
  if (i : Int) < (lines.length : Int) - 3 then (lines.drop i).take 3
  else lines.drop i

/-- Empty catch block: a line containing `catch` where one of the next
lines (per `javaNextLines`) consists solely of a closing brace. -/
def detectEmptyCatch (lines : List String) : List PatternMatch :=
  (enum1 lines).filterMap fun p =>
    if hasSub "catch".data p.2.data
        && (javaNextLines lines p.1).any (fun l => pyStrip l == "\x7d") then
      some ⟨"empty_catch", "major", "Empty catch block - swallows exceptions",
        p.1, pyStrip p.2, 0.8⟩
    else none

/-- Anchored match of the generic-exception pattern: `catch`, optional
whitespace, an opening parenthesis, optional whitespace, `Exception`. -/
def catchExceptionAt (cs : List Char) : Bool :=
  if startsWithChars "catch".data cs then
    match dropSpaces (cs.drop 5) with
    | '(' :: r => startsWithChars "Exception".data (dropSpaces r)
    | _ => false
  else false

/-- Generic exception catching. -/
def detectCatchGeneric (lines : List String) : List PatternMatch :=
  (enum1 lines).filterMap fun p =>
    if anyPos catchExceptionAt p.2.data then
      some ⟨"catch_generic_exception", "minor",
        "Catching generic Exception - be more specific", p.1, pyStrip p.2, 0.9⟩
    else none

/-- `System.out.println` / `System.err.println` substring detection. -/
def detectSystemPrint (lines : List String) : List PatternMatch :=
  (enum1 lines).filterMap fun p =>
    if hasSub "System.out.println".data p.2.data
        || hasSub "System.err.println".data p.2.data then
      some ⟨"console_logging", "minor", "Use logger instead of System.out.println",
        p.1, pyStrip p.2, 0.95⟩
    else none

/-- `PatternDetector._detect_java_patterns`. -/
def detect_java_patterns (lines : List String) : List PatternMatch :=
  detectEmptyCatch lines ++ detectCatchGeneric lines ++ detectSystemPrint lines

/-! Python-specific detectors (`_detect_python_patterns`). -/

/-- Anchored match of the bare-except pattern: `except`, optional
whitespace, a colon. -/
def exceptColonAt (cs : List Char) : Bool :=
  if startsWithChars "except".data cs then
    match dropSpaces (cs.drop 6) with
    | ':' :: _ => true
    | _ => false
  else false

/-- Bare except clause. -/
def detectBareExcept (lines : List String) : List PatternMatch :=
  (enum1 lines).filterMap fun p =>
    if anyPos exceptColonAt p.2.data then
      some ⟨"bare_except", "major", "Bare except clause - catches all exceptions",
        p.1, pyStrip p.2, 0.95⟩
    else none

/-- Anchored match of a `print` call with a word boundary before `print`,
optional whitespace, an opening parenthesis. -/
def printCallAt (prev : Option Char) (cs : List Char) : Bool :=
  boundaryOk prev && startsWithChars "print".data cs &&
    (match dropSpaces (cs.drop 5) with
     | '(' :: _ => true
     | _ => false)

/-- Print statements are only reported when the identifier `logger` does not
occur anywhere in the full source text; since the pattern has no newline,
occurrence in the text is equivalent to occurrence in some line. -/
def codeHasLogger (lines : List String) : Bool :=
  lines.any fun l => hasSub "logger".data l.data

/-- Print call instead of logging. -/
def detectPrintCall (lines : List String) : List PatternMatch :=
  (enum1 lines).filterMap fun p =>
    if anyPosPrev printCallAt none p.2.data && !codeHasLogger lines then
      some ⟨"print_statement", "info", "Consider using logging instead of print",
        p.1, pyStrip p.2, 0.7⟩
    else none

/-- The `[^)]*=` fragment followed by optional whitespace and the literal
opener: search for an equals sign reachable without crossing a closing
parenthesis such that the opener follows after optional whitespace. -/
def findEqOpen (op : Char) : List Char → Bool
  | [] => false
  | c :: t =>
    if c == ')' then false
    else if c == '=' then
      (match dropSpaces t with
       | o :: _ => o == op
       | [] => false) || findEqOpen op t
    else findEqOpen op t

/-- Anchored match of a function definition with a list (`[`) or mapping
(`{`) literal default: `def`, whitespace, a word, optional whitespace, an
opening parenthesis, then `findEqOpen`. -/
def mutableDefAt (op : Char) (cs : List Char) : Bool :=
  if startsWithChars "def".data cs then
    (let r := cs.drop 3
     if (r.takeWhile pyIsSpace).isEmpty then false
     else
       (let r2 := r.dropWhile pyIsSpace
        if (r2.takeWhile isWordChar).isEmpty then false
        else
          match dropSpaces (r2.dropWhile isWordChar) with
          | '(' :: rest => findEqOpen op rest
          | _ => false))
  else false

/-- Mutable default argument. -/
def detectMutableDefault (lines : List String) : List PatternMatch :=
  (enum1 lines).filterMap fun p =>
    if anyPos (mutableDefAt '[') p.2.data || anyPos (mutableDefAt '\x7b') p.2.data then
      some ⟨"mutable_default_argument", "major",
        "Mutable default argument - can lead to unexpected behavior",
        p.1, pyStrip p.2, 0.85⟩
    else none

/-- `PatternDetector._detect_python_patterns`. -/
def detect_python_patterns (lines : List String) : List PatternMatch :=
  detectBareExcept lines ++ detectPrintCall lines ++ detectMutableDefault lines

/-! JavaScript/TypeScript-specific detectors (`_detect_javascript_patterns`). -/

/-- `console.log` / `console.error` substring detection. -/
def detectConsoleLog (lines : List String) : List PatternMatch :=
  (enum1 lines).filterMap fun p =>
    if hasSub "console.log".data p.2.data || hasSub "console.error".data p.2.data then
      some ⟨"console_log", "info", "Remove console.log before production",
        p.1, pyStrip p.2, 0.9⟩
    else none

/-- Anchored match of the loose-equality pattern: a character outside
the set equals/bang/less/greater, two equals signs, and a character that is
not an equals sign. -/
def looseEqAt (cs : List Char) : Bool :=
  match cs with
  | a :: b :: c :: d :: _ =>
    !(a == '=' || a == '!' || a == '<' || a == '>') && b == '=' && c == '='
      && !(d == '=')
  | _ => false

/-- Unanchored search for the loose-equality pattern in one line. -/
def hasLooseEq (cs : List Char) : Bool := anyPos looseEqAt cs

/-- Loose equality. -/
def detectLooseEquality (lines : List String) : List PatternMatch :=
  (enum1 lines).filterMap fun p =>
    if hasLooseEq p.2.data then
      some ⟨"loose_equality", "minor", "Use === instead of == for strict equality",
        p.1, pyStrip p.2, 0.8⟩
    else none

/-- Anchored match of the legacy declaration keyword: word boundary, `var`,
at least one whitespace character. -/
def varKeywordAt (prev : Option Char) (cs : List Char) : Bool :=
  boundaryOk prev && startsWithChars "var".data cs &&
    (match cs.drop 3 with
     | c :: _ => pyIsSpace c
     | [] => false)

/-- Legacy `var` declarations. -/
def detectVarKeyword (lines : List String) : List PatternMatch :=
  (enum1 lines).filterMap fun p =>
    if anyPosPrev varKeywordAt none p.2.data then
      some ⟨"var_keyword", "minor", "Use let or const instead of var",
        p.1, pyStrip p.2, 0.9⟩
    else none

/-- `PatternDetector._detect_javascript_patterns`. -/
def detect_javascript_patterns (lines : List String) : List PatternMatch :=
  detectConsoleLog lines ++ detectLooseEquality lines ++ detectVarKeyword lines

/-! Universal detectors and the rule table. -/

/-- The `\s*=\s*["'][^"']+["']` tail shared by the four credential
patterns. -/
def credValueAt (cs : List Char) : Bool :=
  match dropSpaces cs with
  | '=' :: r =>
    (match dropSpaces r with
     | q :: r2 =>
       isQuote q &&
         (!(r2.takeWhile fun c => !isQuote c).isEmpty &&
           (match r2.dropWhile (fun c => !isQuote c) with
            | q2 :: _ => isQuote q2
            | [] => false))
     | [] => false)
  | _ => false

/-- Anchored case-insensitive match of `password` followed by the
credential tail. -/
def passwordAt (cs : List Char) : Bool :=
  ciStartsWith "password".data cs && credValueAt (cs.drop 8)

/-- Anchored case-insensitive match of `api`, an optional underscore or
hyphen, `key`, and the credential tail. -/
def apiKeyAt (cs : List Char) : Bool :=
  ciStartsWith "api".data cs &&
    (match cs.drop 3 with
     | c :: r2 =>
       if c == '_' || c == '-' then
         ciStartsWith "key".data r2 && credValueAt (r2.drop 3)
       else ciStartsWith "key".data (c :: r2) && credValueAt ((c :: r2).drop 3)
     | [] => false)

/-- Anchored case-insensitive match of `secret` and the credential tail. -/
def secretAt (cs : List Char) : Bool :=
  ciStartsWith "secret".data cs && credValueAt (cs.drop 6)

/-- Anchored case-insensitive match of `token` and the credential tail. -/
def tokenAt (cs : List Char) : Bool :=
  ciStartsWith "token".data cs && credValueAt (cs.drop 5)

/-- The `.*?\+.*?["']` tail of the SQL-injection patterns: a plus sign
followed later by a quote. -/
def plusThenQuote : List Char → Bool
  | [] => false
  | c :: t => (c == '+' && t.any isQuote) || plusThenQuote t

/-- Anchored match of an `execute(`/`query(` call whose first argument
literal is concatenated with `+`. -/
def sqlCallAt (keyword : List Char) (cs : List Char) : Bool :=
  ciStartsWith keyword cs &&
    (match cs.drop keyword.length with
     | q :: r => isQuote q && plusThenQuote r
     | [] => false)

/-- Anchored match of one rule-table TODO/FIXME pattern (case-sensitive,
as written in the table; these entries are never scanned). -/
def todoTableAt (marker word : List Char) (cs : List Char) : Bool :=
  startsWithChars marker cs &&
    startsWithChars word (dropSpaces (cs.drop marker.length))

/-- Anchored case-insensitive match of the inline TODO/FIXME pattern:
`//` or `#`, optional whitespace, `TODO` or `FIXME`. -/
def todoCommentAt (cs : List Char) : Bool :=
  (if startsWithChars "//".data cs then
     (let r := dropSpaces (cs.drop 2)
      ciStartsWith "todo".data r || ciStartsWith "fixme".data r)
   else false) ||
  (if startsWithChars "#".data cs then
     (let r := dropSpaces (cs.drop 1)
      ciStartsWith "todo".data r || ciStartsWith "fixme".data r)
   else false)

/-- `PatternDetector._load_patterns`: the process-wide rule table, in
insertion order, as `(pattern_type, severity, (matcher, message) list)`
entries.  Each regex string of the source is represented by its
executable line matcher. -/
def load_patterns : List (String × String × List ((List Char → Bool) × String)) :=
  [("hardcoded_credentials", "critical",
     [(anyPos passwordAt, "Hardcoded password"),
      (anyPos apiKeyAt, "Hardcoded API key"),
      (anyPos secretAt, "Hardcoded secret"),
      (anyPos tokenAt, "Hardcoded token")]),
   ("sql_injection", "critical",
     [(anyPos (sqlCallAt "execute(".data), "Potential SQL injection"),
      (anyPos (sqlCallAt "query(".data), "Potential SQL injection")]),
   ("todo_comments", "info",
     [(anyPos (todoTableAt "//".data "TODO".data), "TODO comment found"),
      (anyPos (todoTableAt "#".data "TODO".data), "TODO comment found"),
      (anyPos (todoTableAt "//".data "FIXME".data), "FIXME comment found"),
      (anyPos (todoTableAt "#".data "FIXME".data), "FIXME comment found")])]

/-- The rule-table loop of `_detect_universal_patterns`: every entry is
visited, but only the hardcoded-credentials entry is scanned. -/
def scanRuleTable (lines : List String) : List PatternMatch :=
  (load_patterns.map fun entry =>
    if entry.1 = "hardcoded_credentials" then
      (entry.2.2.map fun pm =>
        (enum1 lines).filterMap fun p =>
          if pm.1 p.2.data then
            some ⟨entry.1, entry.2.1, pm.2, p.1, pyStrip p.2, 0.85⟩
          else none).flatten
    else []).flatten

/-- The inline TODO/FIXME loop of `_detect_universal_patterns`
(the excerpt is truncated to 80 characters). -/
def detectTodoComment (lines : List String) : List PatternMatch :=
  (enum1 lines).filterMap fun p =>
    if anyPos todoCommentAt p.2.data then
      some ⟨"todo_comment", "info", "TODO/FIXME comment - needs attention",
        p.1, ⟨(pyStrip p.2).data.take 80⟩, 0.95⟩
    else none

/-- `PatternDetector._detect_universal_patterns`. -/
def detect_universal_patterns (lines : List String) : List PatternMatch :=
  scanRuleTable lines ++ detectTodoComment lines

/-- `PatternDetector.detect_patterns`, applied to `code.split('\n')`:
lowercase the language tag, run the language-specific detectors, then the
universal detectors. -/
def detect_patterns (lines : List String) (language : String) : List PatternMatch :=
  (if pyLower language = "java" then detect_java_patterns lines
   else if pyLower language = "python" then detect_python_patterns lines
   else if pyLower language = "javascript" ∨ pyLower language = "typescript" then
     detect_javascript_patterns lines
   else [])
  ++ detect_universal_patterns lines

/-! ### Embedding service (`app/services/embedding_service.py`) -/

/-- Outcome of calling a fallible operation: a normal return or a raised
exception. -/
inductive CallResult (α : Type) where
  | ok (val : α)
  | exn
deriving DecidableEq, Repr

/-- The collaborators of `EmbeddingService`, as deterministic behaviours:
`hasGemini`/`hasCache` model the truthiness tests on the injected services,
`gemini` maps `(text, model, task_type)` to the provider outcome,
`cacheGetFails` makes every cache lookup raise (the cache is an external
service whose reads can fail), and `dummy` abstracts the deterministic
fallback generator `_generate_dummy_embedding` (an MD5-seeded pseudo-random
unit vector, kept opaque here; no claim depends on its values). -/
structure EmbedDeps where
  hasGemini : Bool
  gemini : String → String → String → CallResult (List ℚ)
  hasCache : Bool
  cacheGetFails : Bool
  dummy : String → List ℚ

/-- The observable state threaded through `generate_embedding`: the cache
contents (most recent write first, as an association list) and call
counters for the provider and the cache. -/
structure EmbedState where
  cache : List (String × List ℚ)
  providerCalls : Nat
  cacheGets : Nat
  cacheSets : Nat
deriving DecidableEq, Repr

/-- `EmbeddingService.embedding_model`. -/
def embedding_model : String := "models/embedding-001"

/-- `EmbeddingService._generate_cache_key`: the SHA-256 hex digest of
`f"{task_type}:{text}"`.  The digest is modelled by its preimage, which is
deterministic in `(task_type, text)` exactly like the collision-free hash. -/
def generate_cache_key (text task_type : String) : String :=
  task_type ++ ":" ++ text

/-- Cache lookup (`cache_service.get_embedding`): the most recent value
written for the key, if any. -/
def cacheLookup (st : EmbedState) (key : String) : Option (List ℚ) :=
  (st.cache.find? fun kv => kv.1 == key).map fun kv => kv.2

/-- The cache write at the end of the `try` block of `generate_embedding`:
`if self.cache_service and embedding:` store the vector (with the fixed
86400-second TTL, owned by the external cache) and return it. -/
def embedCacheWrite (deps : EmbedDeps) (key : String) (emb : List ℚ)
    (st : EmbedState) : CallResult (Option (List ℚ)) × EmbedState :=
  if deps.hasCache ∧ emb ≠ [] then
    (.ok (some emb),
     { st with cache := (key, emb) :: st.cache, cacheSets := st.cacheSets + 1 })
  else (.ok (some emb), st)

/-- The `try` block of `generate_embedding`: call the provider (or the
dummy fallback when no provider is configured), cache a truthy result, and
convert any raised error into an absent result. -/
def embedTryBlock (deps : EmbedDeps) (text task_type key : String)
    (st : EmbedState) : CallResult (Option (List ℚ)) × EmbedState :=
  if deps.hasGemini then
    match deps.gemini text embedding_model task_type with
    | .exn => (.ok none, { st with providerCalls := st.providerCalls + 1 })
    | .ok emb =>
      embedCacheWrite deps key emb { st with providerCalls := st.providerCalls + 1 }
  else
    embedCacheWrite deps key (deps.dummy text) st

/-- `EmbeddingService.generate_embedding`: reject blank text, consult the
cache (a lookup performed outside the `try` block, so a raising cache
propagates), then run the provider inside the `try` block.  A cached empty
vector is falsy in Python and therefore treated as a miss. -/
def generate_embedding (deps : EmbedDeps) (text task_type : String)
    (st : EmbedState) : CallResult (Option (List ℚ)) × EmbedState :=
  if pyIsBlank text then (.ok none, st)
  else
    let key := generate_cache_key text task_type
    if deps.hasCache then
      if deps.cacheGetFails then (.exn, { st with cacheGets := st.cacheGets + 1 })
      else
        let st1 := { st with cacheGets := st.cacheGets + 1 }
        match cacheLookup st key with
        | some v =>
          if v ≠ [] then (.ok (some v), st1)
          else embedTryBlock deps text task_type key st1
        | none => embedTryBlock deps text task_type key st1
    else embedTryBlock deps text task_type key st

/-! ### Cosine similarity (`EmbeddingService.cosine_similarity`)

The float arithmetic of the source is modelled over the reals, so the
square roots of `** 0.5` are exact. -/

/-- Sum of squares of a vector (`sum(a ** 2 for a in vec)`). -/
def sumSq (v : List ℝ) : ℝ := (v.map fun x => x * x).sum

/-- Dot product over `zip` (`sum(a * b for a, b in zip(vec1, vec2))`). -/
def dotProd (v w : List ℝ) : ℝ := (List.zipWith (· * ·) v w).sum

/-- Euclidean norm (`sum(a ** 2 for a in vec) ** 0.5`). -/
noncomputable def magnitude (v : List ℝ) : ℝ := Real.sqrt (sumSq v)

/-- `EmbeddingService.cosine_similarity`: zero for empty or
length-mismatched inputs, zero when either norm is zero, otherwise the dot
product over the product of the norms. -/
noncomputable def cosine_similarity (vec1 vec2 : List ℝ) : ℝ :=
  if vec1 = [] ∨ vec2 = [] ∨ vec1.length ≠ vec2.length then 0
  else if magnitude vec1 = 0 ∨ magnitude vec2 = 0 then 0
  else dotProd vec1 vec2 / (magnitude vec1 * magnitude vec2)

/-! ### Similarity retrieval (`app/services/rag_service.py`) -/

/-- The `where` filter passed to the vector-index query: repository and
language when a non-empty repository id is supplied, language only
otherwise. -/
inductive ChromaFilter where
  | byRepoAndLang (repository_id language : String)
  | byLang (language : String)
deriving DecidableEq, Repr

/-- The raw result of a vector-index query, with one inner list per query
text and metadata as association lists; any component may be absent. -/
structure ChromaQueryRes where
  documents : Option (List (List String))
  metadatas : Option (List (List (List (String × String))))
  distances : Option (List (List ℚ))

/-- The collaborator interface of `RAGService`: the index size and the
nearest-neighbour query, both fallible. -/
structure RagDeps where
  count : CallResult Nat
  query : String → Nat → ChromaFilter → CallResult ChromaQueryRes

/-- One formatted retrieval result. -/
structure SimilarPattern where
  code : String
  metadata : List (String × String)
  distance : ℚ
  description : String
deriving DecidableEq, Repr

/-- Metadata field access (`dict.get(key, default)` is handled at the call
sites). -/
def metaGet (m : List (String × String)) (k : String) : Option String :=
  (m.find? fun kv => kv.1 == k).map fun kv => kv.2

/-- Python list indexing: raises `IndexError` when out of range. -/
def pyIndex {α : Type} (l : List α) (i : Nat) : CallResult α :=
  match l.get? i with
  | some a => .ok a
  | none => .exn

/-- One iteration of the result-formatting loop of
`find_similar_patterns`: metadata and distance are taken from the first
inner list when present (an out-of-range index raises), with `{}`/`0`/`''`
defaults when the whole component is absent or empty (falsy). -/
def formatOne (res : ChromaQueryRes) (i : Nat) (doc : String) :
    CallResult SimilarPattern :=
  let md : CallResult (List (String × String)) :=
    match res.metadatas with
    | none => .ok []
    | some [] => .ok []
    | some (ms0 :: _) => pyIndex ms0 i
  let dist : CallResult ℚ :=
    match res.distances with
    | none => .ok 0
    | some [] => .ok 0
    | some (ds0 :: _) => pyIndex ds0 i
  match md, dist with
  | .ok m, .ok d =>
    .ok { code := doc, metadata := m, distance := d,
          description := (metaGet m "description").getD "" }
  | _, _ => .exn

/-- The result-formatting loop, over `enumerate(results['documents'][0])`. -/
def formatPatterns (res : ChromaQueryRes) : CallResult (List SimilarPattern) :=
  match res.documents with
  | none => .ok []
  | some [] => .ok []
  | some (docs0 :: _) =>
    docs0.enum.foldl
      (fun acc p =>
        match acc with
        | .exn => .exn
        | .ok ps =>
          match formatOne res p.1 p.2 with
          | .exn => .exn
          | .ok sp => .ok (ps ++ [sp]))
      (.ok [])

/-- The body of `find_similar_patterns` inside the `try` block, together
with the number of index queries issued: return early on an empty index,
otherwise query with `min(limit, count)` results and format. -/
def findSimilarBody (deps : RagDeps) (code_snippet repository_id language : String)
    (limit : Nat) : CallResult (List SimilarPattern) × Nat :=
  match deps.count with
  | .exn => (.exn, 0)
  | .ok n =>
    if n = 0 then (.ok [], 0)
    else
      let filt :=
        if repository_id = "" then ChromaFilter.byLang language
        else ChromaFilter.byRepoAndLang repository_id language
      match deps.query code_snippet (Nat.min limit n) filt with
      | .exn => (.exn, 1)
      | .ok res => (formatPatterns res, 1)

/-- `RAGService.find_similar_patterns`: the whole body runs inside
`try`/`except`, so any raised error is converted into an empty result.
The second component counts the index queries issued. -/
def find_similar_patterns (deps : RagDeps) (code_snippet repository_id language : String)
    (limit : Nat) : List SimilarPattern × Nat :=
  match findSimilarBody deps code_snippet repository_id language limit with
  | (.ok ps, q) => (ps, q)
  | (.exn, q) => ([], q)

/-! ### Spec-side predicates and claim-level notions

These definitions transcribe wording of the specification or of a claim,
for comparison with the code-derived definitions above. -/

/-- Number of added lines in a hunk body. -/
def countAdded (body : List String) : Nat := body.countP isAddLine

/-- Number of removed lines in a hunk body. -/
def countRemoved (body : List String) : Nat := body.countP isRemLine

/-- Number of context lines in a hunk body. -/
def countContext (body : List String) : Nat := body.countP isCtxLine

/-- A well-formed (non-malformed) body line of a single hunk: an added,
removed, or context line.  File headers (`+++`/`---` prefixes) and hunk
headers are excluded by the three guards. -/
def bodyLineOk (l : String) : Bool := isAddLine l || isRemLine l || isCtxLine l

/-- Claim C3's reading of the loose-equality rule: the line contains a
`==` token with no character of `=`, `!`, `<`, `>` immediately before it
and no such character immediately after it (in particular a token at the
start or end of the line qualifies). -/
def SpecLooseEqClaim (line : String) : Prop :=
  ∃ pre post, line.data = pre ++ '=' :: '=' :: post ∧
    (∀ a, pre.getLast? = some a → ¬(a = '=' ∨ a = '!' ∨ a = '<' ∨ a = '>')) ∧
    (∀ b, post.head? = some b → ¬(b = '=' ∨ b = '!' ∨ b = '<' ∨ b = '>'))

/-- The loose-equality condition the source actually implements: some
character outside the set equals/bang/less/greater is immediately followed
by `==` and then one further character that is not an equals sign. -/
def SpecLooseEqAmended (line : String) : Prop :=
  ∃ pre a b post, line.data = pre ++ a :: '=' :: '=' :: b :: post ∧
    ¬(a = '=' ∨ a = '!' ∨ a = '<' ∨ a = '>') ∧ b ≠ '='

/-! ### Helper lemmas on character prefixes -/

theorem startsWithChars_append_left (p q s : List Char)
    (h : startsWithChars (p ++ q) s = true) : startsWithChars p s = true := by
  induction p generalizing s with
  | nil => rfl
  | cons a ps ih =>
    cases s with
    | nil => simp [startsWithChars] at h
    | cons c cs =>
      simp only [List.cons_append, startsWithChars, Bool.and_eq_true, beq_iff_eq] at h ⊢
      exact ⟨h.1, ih cs h.2⟩

theorem startsWithChars_cons_iff (a : Char) (p s : List Char) :
    startsWithChars (a :: p) s = true ↔
      ∃ t, s = a :: t ∧ startsWithChars p t = true := by
  cases s with
  | nil => simp [startsWithChars]
  | cons c cs =>
    simp only [startsWithChars, Bool.and_eq_true, beq_iff_eq]
    constructor
    · rintro ⟨rfl, h2⟩
      exact ⟨cs, rfl, h2⟩
    · rintro ⟨t, ht, h2⟩
      cases ht
      exact ⟨rfl, h2⟩

theorem startsWithChars_cons_ne (a c : Char) (p t : List Char) (h : a ≠ c) :
    startsWithChars (a :: p) (c :: t) = false := by
  simp only [startsWithChars, Bool.and_eq_false_iff, beq_eq_false_iff_ne, ne_eq]
  exact Or.inl h

/-! ### Detector output shapes -/

theorem filterMap_if_type (T sev msg : String) (conf : ℚ)
    (g : Nat × String → Bool) (snip : Nat × String → String)
    (lines : List String) (m : PatternMatch)
    (hm : m ∈ (enum1 lines).filterMap fun p =>
      if g p then some ⟨T, sev, msg, p.1, snip p, conf⟩ else none) :
    m.pattern_type = T := by
  simp only [List.mem_filterMap] at hm
  obtain ⟨p, _, hp⟩ := hm
  split at hp
  · cases hp
    rfl
  · cases hp

theorem detect_java_patterns_types (lines : List String) (m : PatternMatch)
    (hm : m ∈ detect_java_patterns lines) :
    m.pattern_type = "empty_catch" ∨ m.pattern_type = "catch_generic_exception"
      ∨ m.pattern_type = "console_logging" := by
  simp only [detect_java_patterns, List.mem_append] at hm
  rcases hm with (hm | hm) | hm
  · exact Or.inl (filterMap_if_type _ _ _ _ _ _ _ _ hm)
  · exact Or.inr (Or.inl (filterMap_if_type _ _ _ _ _ _ _ _ hm))
  · exact Or.inr (Or.inr (filterMap_if_type _ _ _ _ _ _ _ _ hm))

theorem detect_python_patterns_types (lines : List String) (m : PatternMatch)
    (hm : m ∈ detect_python_patterns lines) :
    m.pattern_type = "bare_except" ∨ m.pattern_type = "print_statement"
      ∨ m.pattern_type = "mutable_default_argument" := by
  simp only [detect_python_patterns, List.mem_append] at hm
  rcases hm with (hm | hm) | hm
  · exact Or.inl (filterMap_if_type _ _ _ _ _ _ _ _ hm)
  · exact Or.inr (Or.inl (filterMap_if_type _ _ _ _ _ _ _ _ hm))
  · exact Or.inr (Or.inr (filterMap_if_type _ _ _ _ _ _ _ _ hm))

theorem detect_javascript_patterns_types (lines : List String) (m : PatternMatch)
    (hm : m ∈ detect_javascript_patterns lines) :
    m.pattern_type = "console_log" ∨ m.pattern_type = "loose_equality"
      ∨ m.pattern_type = "var_keyword" := by
  simp only [detect_javascript_patterns, List.mem_append] at hm
  rcases hm with (hm | hm) | hm
  · exact Or.inl (filterMap_if_type _ _ _ _ _ _ _ _ hm)
  · exact Or.inr (Or.inl (filterMap_if_type _ _ _ _ _ _ _ _ hm))
  · exact Or.inr (Or.inr (filterMap_if_type _ _ _ _ _ _ _ _ hm))

theorem scanRuleTable_types (lines : List String) (m : PatternMatch)
    (hm : m ∈ scanRuleTable lines) : m.pattern_type = "hardcoded_credentials" := by
  simp only [scanRuleTable, List.mem_flatten, List.mem_map] at hm
  obtain ⟨l, ⟨entry, hentry, hl⟩, hml⟩ := hm
  subst hl
  split at hml
  case isTrue h =>
    simp only [List.mem_flatten, List.mem_map] at hml
    obtain ⟨l2, ⟨pm, hpm, hl2⟩, hml2⟩ := hml
    subst hl2
    have := filterMap_if_type entry.1 entry.2.1 pm.2 0.85
      (fun p => pm.1 p.2.data) (fun p => pyStrip p.2) lines m hml2
    rw [this, h]
  case isFalse h =>
    cases hml

theorem detect_universal_patterns_types (lines : List String) (m : PatternMatch)
    (hm : m ∈ detect_universal_patterns lines) :
    m.pattern_type = "hardcoded_credentials" ∨ m.pattern_type = "todo_comment" := by
  simp only [detect_universal_patterns, List.mem_append] at hm
  rcases hm with hm | hm
  · exact Or.inl (scanRuleTable_types lines m hm)
  · exact Or.inr (filterMap_if_type _ _ _ _ _ _ _ _ hm)

theorem detect_patterns_types (lines : List String) (lang : String) (m : PatternMatch)
    (hm : m ∈ detect_patterns lines lang) :
    m.pattern_type ∈ (["empty_catch", "catch_generic_exception", "console_logging",
      "bare_except", "print_statement", "mutable_default_argument",
      "console_log", "loose_equality", "var_keyword",
      "hardcoded_credentials", "todo_comment"] : List String) := by
  simp only [detect_patterns, List.mem_append] at hm
  rcases hm with hm | hm
  · split at hm
    · rcases detect_java_patterns_types lines m hm with h | h | h <;> simp [h]
    · split at hm
      · rcases detect_python_patterns_types lines m hm with h | h | h <;> simp [h]
      · split at hm
        · rcases detect_javascript_patterns_types lines m hm with h | h | h <;> simp [h]
        · cases hm
  · rcases detect_universal_patterns_types lines m hm with h | h <;> simp [h]

/-- Claim C10: `detect_patterns` never returns a match whose pattern type
is `sql_injection`, for any input and language, even though the rule table
loaded by `_load_patterns` contains a `sql_injection` entry — the
universal scan applies only the hardcoded-credentials entry of the
table. -/
theorem C10_no_sql_injection_ever_emitted :
    (∀ lines lang, (detect_patterns lines lang).filter
        (fun m => m.pattern_type == "sql_injection") = []) ∧
    "sql_injection" ∈ load_patterns.map (fun e => e.1) := by
  constructor
  · intro lines lang
    rw [List.filter_eq_nil_iff]
    intro m hm
    have h := detect_patterns_types lines lang m hm
    simp only [List.mem_cons, List.not_mem_nil, or_false] at h
    simp only [beq_iff_eq]
    rcases h with h | h | h | h | h | h | h | h | h | h | h <;> simp [h]
  · simp [load_patterns]

/-! ### Loose equality (claim C3) -/

theorem anyPos_iff_exists (f : List Char → Bool) (cs : List Char) :
    anyPos f cs = true ↔ ∃ pre post, cs = pre ++ post ∧ f post = true := by
  induction cs with
  | nil =>
    simp only [anyPos]
    constructor
    · intro h
      exact ⟨[], [], rfl, h⟩
    · rintro ⟨pre, post, h, hf⟩
      obtain ⟨rfl, rfl⟩ := List.append_eq_nil.mp h.symm
      exact hf
  | cons c t ih =>
    simp only [anyPos, Bool.or_eq_true, ih]
    constructor
    · rintro (h | ⟨pre, post, rfl, hf⟩)
      · exact ⟨[], c :: t, rfl, h⟩
      · exact ⟨c :: pre, post, rfl, hf⟩
    · rintro ⟨pre, post, heq, hf⟩
      cases pre with
      | nil =>
        simp only [List.nil_append] at heq
        subst heq
        exact Or.inl hf
      | cons a pre₂ =>
        injection heq with h1 h2
        exact Or.inr ⟨pre₂, post, h2, hf⟩

theorem looseEqAt_iff (post : List Char) :
    looseEqAt post = true ↔ ∃ a b rest, post = a :: '=' :: '=' :: b :: rest ∧
      ¬(a = '=' ∨ a = '!' ∨ a = '<' ∨ a = '>') ∧ b ≠ '=' := by
  cases post with
  | nil => simp [looseEqAt]
  | cons a t =>
    cases t with
    | nil => simp [looseEqAt]
    | cons b t₂ =>
      cases t₂ with
      | nil => simp [looseEqAt]
      | cons c t₃ =>
        cases t₃ with
        | nil => simp [looseEqAt]
        | cons d rest =>
          simp only [looseEqAt, Bool.and_eq_true, Bool.not_eq_true',
            Bool.or_eq_false_iff, beq_eq_false_iff_ne, ne_eq, beq_iff_eq]
          constructor
          · intro h
            have h1 : ¬(a = '=' ∨ a = '!' ∨ a = '<' ∨ a = '>') := by tauto
            have h2 : b = '=' := by tauto
            have h3 : c = '=' := by tauto
            have h4 : ¬d = '=' := by tauto
            subst h2
            subst h3
            exact ⟨a, d, rest, rfl, h1, h4⟩
          · rintro ⟨a', b', rest', heq, hp, hb⟩
            injection heq with e1 heq
            injection heq with e2 heq
            injection heq with e3 heq
            injection heq with e4 heq
            subst e1
            subst e2
            subst e3
            subst e4
            subst heq
            tauto

theorem hasLooseEq_iff_amended (line : String) :
    hasLooseEq line.data = true ↔ SpecLooseEqAmended line := by
  rw [hasLooseEq, anyPos_iff_exists]
  constructor
  · rintro ⟨pre, post, heq, hf⟩
    obtain ⟨a, b, rest, rfl, hp, hb⟩ := (looseEqAt_iff post).mp hf
    exact ⟨pre, a, b, rest, heq, hp, hb⟩
  · rintro ⟨pre, a, b, post, heq, hp, hb⟩
    exact ⟨pre, a :: '=' :: '=' :: b :: post, heq,
      (looseEqAt_iff _).mpr ⟨a, b, post, rfl, hp, hb⟩⟩

theorem detect_patterns_js_dispatch (lines : List String) :
    detect_patterns lines "javascript" =
      detect_javascript_patterns lines ++ detect_universal_patterns lines := by
  unfold detect_patterns
  rw [if_neg (by decide), if_neg (by decide), if_pos (by decide)]

theorem detectLooseEquality_filter_self (lines : List String) :
    (detectLooseEquality lines).filter (fun m => m.pattern_type == "loose_equality") =
      detectLooseEquality lines := by
  rw [List.filter_eq_self]
  intro m hm
  have h := filterMap_if_type _ _ _ _ _ _ _ _ hm
  simp [h]

theorem filter_loose_equality (lines : List String) :
    (detect_patterns lines "javascript").filter
        (fun m => m.pattern_type == "loose_equality") =
      detectLooseEquality lines := by
  rw [detect_patterns_js_dispatch, List.filter_append]
  have h2 : (detect_universal_patterns lines).filter
      (fun m => m.pattern_type == "loose_equality") = [] := by
    rw [List.filter_eq_nil_iff]
    intro m hm
    rcases detect_universal_patterns_types lines m hm with h | h <;> simp [h]
  rw [h2, List.append_nil]
  show (detectConsoleLog lines ++ detectLooseEquality lines ++ detectVarKeyword lines).filter _ = _
  rw [List.filter_append, List.filter_append]
  have hc : (detectConsoleLog lines).filter
      (fun m => m.pattern_type == "loose_equality") = [] := by
    rw [List.filter_eq_nil_iff]
    intro m hm
    have h := filterMap_if_type _ _ _ _ _ _ _ _ hm
    simp [h]
  have hv : (detectVarKeyword lines).filter
      (fun m => m.pattern_type == "loose_equality") = [] := by
    rw [List.filter_eq_nil_iff]
    intro m hm
    have h := filterMap_if_type _ _ _ _ _ _ _ _ hm
    simp [h]
  rw [hc, hv, detectLooseEquality_filter_self, List.nil_append, List.append_nil]

theorem detectLooseEquality_singleton (line : String) :
    detectLooseEquality [line] =
      if hasLooseEq line.data then
        [⟨"loose_equality", "minor", "Use === instead of == for strict equality",
          1, pyStrip line, 0.8⟩]
      else [] := by
  have he : enum1 [line] = [(1, line)] := rfl
  rw [detectLooseEquality, he]
  split
  case isTrue h => simp [List.filterMap, h]
  case isFalse h => simp [List.filterMap, h]

/-- Claim C3 (amended): for a single input line scanned as JavaScript, the
detector emits exactly one `loose_equality` match, with severity `minor`
and confidence 0.8, precisely when the line contains a character other
than `=`, `!`, `<`, `>` immediately followed by `==` immediately followed
by one further character that is not `=`; the line characterization
`hasLooseEq` of the source agrees with that decomposition.  (The original
claim also accepted `==` at the start or end of the line and rejected `!`,
`<`, `>` after the token; the source requires a character on both sides and
only forbids `=` after.) -/
theorem C3_loose_equality_amended (line : String) :
    (detect_patterns [line] "javascript").filter
        (fun m => m.pattern_type == "loose_equality") =
      (if hasLooseEq line.data then
        [⟨"loose_equality", "minor", "Use === instead of == for strict equality",
          1, pyStrip line, 0.8⟩]
      else []) ∧
    (hasLooseEq line.data = true ↔ SpecLooseEqAmended line) := by
  refine ⟨?_, hasLooseEq_iff_amended line⟩
  rw [filter_loose_equality, detectLooseEquality_singleton]

/-- Witness for the amended claim C3 at a concrete line. -/
theorem C3_loose_equality_amended_witness :
    ((detect_patterns ["a == b"] "javascript").filter
        (fun m => m.pattern_type == "loose_equality") =
      if hasLooseEq "a == b".data then
        [⟨"loose_equality", "minor", "Use === instead of == for strict equality",
          1, pyStrip "a == b", 0.8⟩]
      else []) ∧
    (hasLooseEq "a == b".data = true ↔ SpecLooseEqAmended "a == b") :=
  C3_loose_equality_amended "a == b"

/-- Claim C3, counterexample to the original statement: the line `a==`
contains a `==` token that is not immediately preceded and not immediately
followed by any of `=`, `!`, `<`, `>` (nothing follows it at all), yet the
detector emits no `loose_equality` match, because the concrete pattern
requires a following character. -/
theorem C3_counterexample :
    SpecLooseEqClaim "a==" ∧
      (detect_patterns ["a=="] "javascript").filter
        (fun m => m.pattern_type == "loose_equality") = [] := by
  constructor
  · refine ⟨['a'], [], by decide, ?_, ?_⟩
    · intro x hx
      simp only [List.getLast?] at hx
      injection hx with hx
      subst hx
      decide
    · intro b hb
      simp at hb
  · rw [filter_loose_equality, detectLooseEquality_singleton]
    simp [show hasLooseEq "a==".data = false by decide]

/-! ### Diff parser lemmas (claims C1, C2, C6) -/

theorem pyStartsWith_ne_first (l p : String) (c a : Char) (t u : List Char)
    (hl : l.data = c :: t) (hp : p.data = a :: u) (h : a ≠ c) :
    pyStartsWith l p = false := by
  rw [pyStartsWith, hl, hp]
  exact startsWithChars_cons_ne a c u t h

theorem parseChunkHeader_none_of_head (l : String) (c : Char) (t : List Char)
    (hd : l.data = c :: t) (hc : c ≠ '@') : parseChunkHeader l = none := by
  simp only [parseChunkHeader, hd]
  rw [startsWithChars_cons_ne '@' c _ t (fun h => hc h.symm)]
  simp

theorem parseChunkHeader_head (l : String) (r : Nat × Nat × Nat × Nat)
    (h : parseChunkHeader l = some r) :
    startsWithChars ['@', '@', ' ', '-'] l.data = true := by
  by_cases hg : startsWithChars ['@', '@', ' ', '-'] l.data = true
  · exact hg
  · rw [parseChunkHeader, if_neg hg] at h
    cases h

theorem isAddLine_data (l : String) (h : isAddLine l = true) :
    ∃ t, l.data = '+' :: t := by
  simp only [isAddLine, Bool.and_eq_true] at h
  obtain ⟨t, ht, -⟩ := (startsWithChars_cons_iff '+' [] l.data).mp h.1
  exact ⟨t, ht⟩

theorem isRemLine_data (l : String) (h : isRemLine l = true) :
    ∃ t, l.data = '-' :: t := by
  simp only [isRemLine, Bool.and_eq_true] at h
  obtain ⟨t, ht, -⟩ := (startsWithChars_cons_iff '-' [] l.data).mp h.1
  exact ⟨t, ht⟩

theorem isCtxLine_data (l : String) (h : isCtxLine l = true) :
    ∃ t, l.data = ' ' :: t := by
  obtain ⟨t, ht, -⟩ := (startsWithChars_cons_iff ' ' [] l.data).mp h
  exact ⟨t, ht⟩

theorem isAddLine_false_of_head (l : String) (c : Char) (t : List Char)
    (hd : l.data = c :: t) (hc : c ≠ '+') : isAddLine l = false := by
  rw [isAddLine, pyStartsWith_ne_first l "+" c '+' t [] hd rfl (fun h => hc h.symm)]
  rfl

theorem isRemLine_false_of_head (l : String) (c : Char) (t : List Char)
    (hd : l.data = c :: t) (hc : c ≠ '-') : isRemLine l = false := by
  rw [isRemLine, pyStartsWith_ne_first l "-" c '-' t [] hd rfl (fun h => hc h.symm)]
  rfl

theorem isCtxLine_false_of_head (l : String) (c : Char) (t : List Char)
    (hd : l.data = c :: t) (hc : c ≠ ' ') : isCtxLine l = false := by
  rw [isCtxLine, pyStartsWith_ne_first l " " c ' ' t [] hd rfl (fun h => hc h.symm)]

theorem parseStep_add (st : ParseState) (c : DiffChunk) (l : String)
    (hc : st.current_chunk = some c) (hl : isAddLine l = true) :
    parseStep st l = { st with
      current_chunk := some { c with
        added_lines := c.added_lines ++ [(st.new_line, strTail l)] }
      new_line := st.new_line + 1 } := by
  obtain ⟨t, ht⟩ := isAddLine_data l hl
  have h3 : pyStartsWith l "+++" = false := by
    simp only [isAddLine, Bool.and_eq_true, Bool.not_eq_true'] at hl
    exact hl.2
  have hfile : pyStartsWith l "+++ b/" = false := by
    cases hf : pyStartsWith l "+++ b/" with
    | false => rfl
    | true =>
      have : pyStartsWith l "+++" = true :=
        startsWithChars_append_left "+++".data " b/".data l.data hf
      rw [h3] at this
      cases this
  have hhdr : parseChunkHeader l = none :=
    parseChunkHeader_none_of_head l '+' t ht (by decide)
  simp [parseStep, hfile, hhdr, hc, hl]

theorem parseStep_rem (st : ParseState) (c : DiffChunk) (l : String)
    (hc : st.current_chunk = some c) (hl : isRemLine l = true) :
    parseStep st l = { st with
      current_chunk := some { c with
        removed_lines := c.removed_lines ++ [(st.old_line, strTail l)] }
      old_line := st.old_line + 1 } := by
  obtain ⟨t, ht⟩ := isRemLine_data l hl
  have hfile : pyStartsWith l "+++ b/" = false :=
    pyStartsWith_ne_first l "+++ b/" '-' '+' t _ ht rfl (by decide)
  have hhdr : parseChunkHeader l = none :=
    parseChunkHeader_none_of_head l '-' t ht (by decide)
  have hadd : isAddLine l = false := isAddLine_false_of_head l '-' t ht (by decide)
  simp [parseStep, hfile, hhdr, hc, hadd, hl]

theorem parseStep_ctx (st : ParseState) (c : DiffChunk) (l : String)
    (hc : st.current_chunk = some c) (hl : isCtxLine l = true) :
    parseStep st l = { st with
      current_chunk := some { c with
        context_lines := c.context_lines ++ [(st.new_line, strTail l)] }
      old_line := st.old_line + 1
      new_line := st.new_line + 1 } := by
  obtain ⟨t, ht⟩ := isCtxLine_data l hl
  have hfile : pyStartsWith l "+++ b/" = false :=
    pyStartsWith_ne_first l "+++ b/" ' ' '+' t _ ht rfl (by decide)
  have hhdr : parseChunkHeader l = none :=
    parseChunkHeader_none_of_head l ' ' t ht (by decide)
  have hadd : isAddLine l = false := isAddLine_false_of_head l ' ' t ht (by decide)
  have hrem : isRemLine l = false := isRemLine_false_of_head l ' ' t ht (by decide)
  simp [parseStep, hfile, hhdr, hc, hadd, hrem, hl]

theorem foldl_parseStep_pre (pre : List String) (st : ParseState)
    (hchunk : st.current_chunk = none)
    (hp : ∀ l ∈ pre, parseChunkHeader l = none) :
    (pre.foldl parseStep st).current_chunk = none ∧
      (pre.foldl parseStep st).chunks = st.chunks := by
  induction pre generalizing st with
  | nil => exact ⟨hchunk, rfl⟩
  | cons l rest ih =>
    have hstep : (parseStep st l).current_chunk = none ∧
        (parseStep st l).chunks = st.chunks := by
      unfold parseStep
      split
      · exact ⟨hchunk, rfl⟩
      · rw [hp l (by simp), hchunk]
        exact ⟨hchunk, rfl⟩
    rw [List.foldl_cons]
    obtain ⟨ha, hb⟩ := ih (parseStep st l) hstep.1 (fun l' h => hp l' (by simp [h]))
    exact ⟨ha, hb.trans hstep.2⟩

theorem foldl_parseStep_body (body : List String) (st : ParseState) (c : DiffChunk)
    (hc : st.current_chunk = some c)
    (hb : ∀ l ∈ body, bodyLineOk l = true) :
    ∃ c₂, (body.foldl parseStep st).current_chunk = some c₂ ∧
      (body.foldl parseStep st).chunks = st.chunks ∧
      c₂.file_path = c.file_path ∧
      c₂.old_start = c.old_start ∧ c₂.old_count = c.old_count ∧
      c₂.new_start = c.new_start ∧ c₂.new_count = c.new_count ∧
      c₂.added_lines.length = c.added_lines.length + countAdded body ∧
      c₂.removed_lines.length = c.removed_lines.length + countRemoved body ∧
      c₂.context_lines.length = c.context_lines.length + countContext body := by
  induction body generalizing st c with
  | nil =>
    exact ⟨c, hc, rfl, rfl, rfl, rfl, rfl, rfl,
      by simp [countAdded], by simp [countRemoved], by simp [countContext]⟩
  | cons l rest ih =>
    have hok := hb l (by simp)
    have hrest : ∀ l' ∈ rest, bodyLineOk l' = true := fun l' h => hb l' (by simp [h])
    simp only [bodyLineOk, Bool.or_eq_true] at hok
    rw [List.foldl_cons]
    rcases hok with (ha | hr) | hx
    · obtain ⟨t, ht⟩ := isAddLine_data l ha
      have hrem : isRemLine l = false := isRemLine_false_of_head l '+' t ht (by decide)
      have hctx : isCtxLine l = false := isCtxLine_false_of_head l '+' t ht (by decide)
      rw [parseStep_add st c l hc ha]
      obtain ⟨c₂, g1, g2, g3, g4, g5, g6, g7, g8, g9, g10⟩ :=
        ih { st with
              current_chunk := some { c with
                added_lines := c.added_lines ++ [(st.new_line, strTail l)] }
              new_line := st.new_line + 1 }
          { c with added_lines := c.added_lines ++ [(st.new_line, strTail l)] }
          rfl hrest
      refine ⟨c₂, g1, g2, g3, g4, g5, g6, g7, ?_, ?_, ?_⟩
      · rw [g8]
        simp [countAdded, List.countP_cons, ha]
        omega
      · rw [g9]
        simp [countRemoved, List.countP_cons, hrem]
      · rw [g10]
        simp [countContext, List.countP_cons, hctx]
    · obtain ⟨t, ht⟩ := isRemLine_data l hr
      have hadd : isAddLine l = false := isAddLine_false_of_head l '-' t ht (by decide)
      have hctx : isCtxLine l = false := isCtxLine_false_of_head l '-' t ht (by decide)
      rw [parseStep_rem st c l hc hr]
      obtain ⟨c₂, g1, g2, g3, g4, g5, g6, g7, g8, g9, g10⟩ :=
        ih { st with
              current_chunk := some { c with
                removed_lines := c.removed_lines ++ [(st.old_line, strTail l)] }
              old_line := st.old_line + 1 }
          { c with removed_lines := c.removed_lines ++ [(st.old_line, strTail l)] }
          rfl hrest
      refine ⟨c₂, g1, g2, g3, g4, g5, g6, g7, ?_, ?_, ?_⟩
      · rw [g8]
        simp [countAdded, List.countP_cons, hadd]
      · rw [g9]
        simp [countRemoved, List.countP_cons, hr]
        omega
      · rw [g10]
        simp [countContext, List.countP_cons, hctx]
    · obtain ⟨t, ht⟩ := isCtxLine_data l hx
      have hadd : isAddLine l = false := isAddLine_false_of_head l ' ' t ht (by decide)
      have hrem : isRemLine l = false := isRemLine_false_of_head l ' ' t ht (by decide)
      rw [parseStep_ctx st c l hc hx]
      obtain ⟨c₂, g1, g2, g3, g4, g5, g6, g7, g8, g9, g10⟩ :=
        ih { st with
              current_chunk := some { c with
                context_lines := c.context_lines ++ [(st.new_line, strTail l)] }
              old_line := st.old_line + 1
              new_line := st.new_line + 1 }
          { c with context_lines := c.context_lines ++ [(st.new_line, strTail l)] }
          rfl hrest
      refine ⟨c₂, g1, g2, g3, g4, g5, g6, g7, ?_, ?_, ?_⟩
      · rw [g8]
        simp [countAdded, List.countP_cons, hadd]
      · rw [g9]
        simp [countRemoved, List.countP_cons, hrem]
      · rw [g10]
        simp [countContext, List.countP_cons, hx]
        omega

/-- Claim C1 (amended): for a well-formed single-hunk diff — any preamble
of non-header lines, one hunk header, and a body of added/removed/context
lines whose counts are consistent with the header in the standard
unified-diff sense (old count = removed + context, new count = added +
context) — `parse_diff` yields exactly one chunk carrying the header's
counts, and in that chunk the number of added entries **plus context
entries** equals the header's new count while removed entries plus context
entries equals the old count.  (The original claim equated the added
entries alone with the new count and the removed entries alone with the
old count, which fails as soon as a context line is present.) -/
theorem C1_single_hunk_counts_amended (pre : List String) (header : String)
    (body : List String) (os oc ns nc : Nat)
    (hpre : ∀ l ∈ pre, parseChunkHeader l = none)
    (hh : parseChunkHeader header = some (os, oc, ns, nc))
    (hb : ∀ l ∈ body, bodyLineOk l = true)
    (hoc : oc = countRemoved body + countContext body)
    (hnc : nc = countAdded body + countContext body) :
    ∃ ch, parse_diff (pre ++ header :: body) = [ch] ∧
      ch.old_count = oc ∧ ch.new_count = nc ∧
      ch.added_lines.length + ch.context_lines.length = nc ∧
      ch.removed_lines.length + ch.context_lines.length = oc := by
  obtain ⟨h1, h2⟩ := foldl_parseStep_pre pre initParseState rfl hpre
  have hg := parseChunkHeader_head header _ hh
  obtain ⟨t, ht, -⟩ := (startsWithChars_cons_iff '@' _ header.data).mp hg
  have hfile : pyStartsWith header "+++ b/" = false :=
    pyStartsWith_ne_first header "+++ b/" '@' '+' t _ ht rfl (by decide)
  have hstep : parseStep (pre.foldl parseStep initParseState) header =
      { chunks := (pre.foldl parseStep initParseState).chunks
        current_file := (pre.foldl parseStep initParseState).current_file
        current_chunk := some
          { file_path := (pre.foldl parseStep initParseState).current_file.getD ""
            old_start := os, old_count := oc, new_start := ns, new_count := nc
            added_lines := [], removed_lines := [], context_lines := [] }
        old_line := os
        new_line := ns } := by
    simp [parseStep, hfile, hh, h1]
  obtain ⟨c₂, g1, g2, g3, g4, g5, g6, g7, g8, g9, g10⟩ :=
    foldl_parseStep_body body
      (parseStep (pre.foldl parseStep initParseState) header)
      { file_path := (pre.foldl parseStep initParseState).current_file.getD ""
        old_start := os, old_count := oc, new_start := ns, new_count := nc
        added_lines := [], removed_lines := [], context_lines := [] }
      (by rw [hstep]) hb
  refine ⟨c₂, ?_, g5, g7, ?_, ?_⟩
  · show ((pre ++ header :: body).foldl parseStep initParseState).chunks
        ++ ((pre ++ header :: body).foldl parseStep initParseState).current_chunk.toList
      = [c₂]
    rw [List.foldl_append, List.foldl_cons, g1, g2, hstep]
    show (pre.foldl parseStep initParseState).chunks ++ [c₂] = [c₂]
    rw [h2]
    rfl
  · rw [g8, g10]
    simp [hnc]
  · rw [g9, g10]
    simp [hoc]

/-- Claim C1, counterexample to the original statement: the diff with
preamble `--- a/f.txt`, `+++ b/f.txt`, hunk header `@@ -1,2 +1,2 @@` and
body ` a`, `-b`, `+c` is well formed (the header counts match the body:
old count 2 = 1 removed + 1 context, new count 2 = 1 added + 1 context)
and contains no malformed line, yet the parsed chunk has 1 added entry,
not 2 as the claim's equation with the header's new count demands. -/
theorem C1_counterexample :
    (∀ l ∈ (["--- a/f.txt", "+++ b/f.txt"] : List String), parseChunkHeader l = none) ∧
    parseChunkHeader "@@ -1,2 +1,2 @@" = some (1, 2, 1, 2) ∧
    (∀ l ∈ ([" a", "-b", "+c"] : List String), bodyLineOk l = true) ∧
    2 = countRemoved [" a", "-b", "+c"] + countContext [" a", "-b", "+c"] ∧
    2 = countAdded [" a", "-b", "+c"] + countContext [" a", "-b", "+c"] ∧
    ∃ ch, parse_diff (["--- a/f.txt", "+++ b/f.txt"] ++
        "@@ -1,2 +1,2 @@" :: [" a", "-b", "+c"]) = [ch] ∧
      ch.new_count = 2 ∧ ch.added_lines.length = 1 := by
  refine ⟨by decide, by decide, by decide, by decide, by decide, ?_⟩
  exact ⟨⟨"f.txt", 1, 2, 1, 2, [(2, "c")], [(2, "b")], [(1, "a")]⟩,
    by decide, rfl, rfl⟩

/-- Witness for the amended claim C1 at a concrete well-formed diff. -/
theorem C1_single_hunk_counts_amended_witness :
    ∃ ch, parse_diff (["+++ b/f.txt"] ++ "@@ -1,2 +1,2 @@" :: [" a", "-b", "+c"]) = [ch] ∧
      ch.old_count = 2 ∧ ch.new_count = 2 ∧
      ch.added_lines.length + ch.context_lines.length = 2 ∧
      ch.removed_lines.length + ch.context_lines.length = 2 :=
  C1_single_hunk_counts_amended ["+++ b/f.txt"] "@@ -1,2 +1,2 @@" [" a", "-b", "+c"]
    1 2 1 2 (by decide) (by decide) (by decide) (by decide) (by decide)

/-- Claim C2 (amended): a context line scanned while a chunk is open is
appended to the chunk's context sequence at the running **new-line**
counter, and both running counters increment by one.  (The original claim
states that the entry is recorded at both counters; the recorded pair
holds only the new-line counter, which differs from the old-line counter
whenever the hunk's two start lines or the numbers of added and removed
lines seen so far differ.) -/
theorem C2_context_line_amended (st : ParseState) (c : DiffChunk) (l : String)
    (hc : st.current_chunk = some c) (hl : isCtxLine l = true) :
    parseStep st l = { st with
      current_chunk := some { c with
        context_lines := c.context_lines ++ [(st.new_line, strTail l)] }
      old_line := st.old_line + 1
      new_line := st.new_line + 1 } :=
  parseStep_ctx st c l hc hl

/-- Claim C2, counterexample to the original statement: after the hunk
header `@@ -1,1 +2,2 @@` the running old-line counter is 1 and the
new-line counter is 2; the context line ` b` is recorded as `(2, "b")` —
at the new-line counter only, not at the old-line counter 1. -/
theorem C2_counterexample :
    (parseStep initParseState "@@ -1,1 +2,2 @@").old_line = 1 ∧
    (parseStep initParseState "@@ -1,1 +2,2 @@").new_line = 2 ∧
    ∃ c, (parseStep (parseStep initParseState "@@ -1,1 +2,2 @@") " b").current_chunk
        = some c ∧
      c.context_lines = [(2, "b")] ∧ (2 : Nat) ≠ 1 := by
  refine ⟨by decide, by decide,
    ⟨"", 1, 1, 2, 2, [], [], [(2, "b")]⟩, by decide, by decide, by decide⟩

/-- Witness for the amended claim C2 at a concrete state and line. -/
theorem C2_context_line_amended_witness :
    parseStep ⟨[], none, some ⟨"f", 1, 1, 1, 1, [], [], []⟩, 5, 9⟩ " hi" =
      ⟨[], none, some ⟨"f", 1, 1, 1, 1, [], [], [(9, "hi")]⟩, 6, 10⟩ :=
  C2_context_line_amended ⟨[], none, some ⟨"f", 1, 1, 1, 1, [], [], []⟩, 5, 9⟩
    ⟨"f", 1, 1, 1, 1, [], [], []⟩ " hi" rfl (by decide)

/-! ### Range merging (claim C6) -/

theorem mergeStepRev_chain (acc : List (Nat × Nat)) (r : Nat × Nat)
    (h : List.Chain' (fun a b => b.2 + 1 < a.1) acc) :
    List.Chain' (fun a b => b.2 + 1 < a.1) (mergeStepRev acc r) := by
  cases acc with
  | nil => simp [mergeStepRev]
  | cons last tl =>
    simp only [mergeStepRev]
    split
    next hle =>
      cases tl with
      | nil => simp
      | cons b tl₂ =>
        rw [List.chain'_cons] at h ⊢
        exact ⟨h.1, h.2⟩
    next hgt =>
      rw [List.chain'_cons]
      exact ⟨by omega, h⟩

theorem foldl_mergeStepRev_chain (rs : List (Nat × Nat)) (acc : List (Nat × Nat))
    (h : List.Chain' (fun a b => b.2 + 1 < a.1) acc) :
    List.Chain' (fun a b => b.2 + 1 < a.1) (rs.foldl mergeStepRev acc) := by
  induction rs generalizing acc with
  | nil => exact h
  | cons r rest ih =>
    rw [List.foldl_cons]
    exact ih (mergeStepRev acc r) (mergeStepRev_chain acc r h)

theorem mergeRanges_chain (rs : List (Nat × Nat)) :
    List.Chain' (fun r1 r2 => r1.2 + 1 < r2.1) (mergeRanges rs) := by
  unfold mergeRanges
  split
  · simp
  · rw [List.chain'_reverse]
    exact foldl_mergeStepRev_chain _ _ (List.chain'_singleton _)

/-- Claim C6: for every diff text and file path, the ranges returned by
`get_changed_line_ranges` are pairwise non-overlapping and non-touching —
each adjacent pair `(s1, e1)`, `(s2, e2)` of the result satisfies
`s2 > e1 + 1` (which in particular covers every adjacent pair with
`s1 < s2`). -/
theorem C6_changed_line_ranges_separated (diffLines : List String) (file_path : String) :
    List.Chain' (fun r1 r2 => r1.2 + 1 < r2.1)
      (get_changed_line_ranges diffLines file_path) :=
  mergeRanges_chain _

/-- Witness for claim C6 at a concrete two-hunk diff whose provisional
ranges are adjacent and therefore merged. -/
theorem C6_changed_line_ranges_separated_witness :
    List.Chain' (fun r1 r2 => r1.2 + 1 < r2.1)
      (get_changed_line_ranges
        ["+++ b/f", "@@ -1,3 +1,3 @@", "+a", "+b", "@@ -3,3 +3,3 @@", "+x"] "f") :=
  C6_changed_line_ranges_separated
    ["+++ b/f", "@@ -1,3 +1,3 @@", "+a", "+b", "@@ -3,3 +3,3 @@", "+x"] "f"

/-! ### Embedding cache (claims C4, C5, C8) -/

theorem embedCacheWrite_never_raises (deps : EmbedDeps) (key : String)
    (emb : List ℚ) (st : EmbedState) :
    ∃ o st₂, embedCacheWrite deps key emb st = (.ok o, st₂) := by
  unfold embedCacheWrite
  split
  · exact ⟨some emb, _, rfl⟩
  · exact ⟨some emb, _, rfl⟩

theorem embedTryBlock_never_raises (deps : EmbedDeps) (text task_type key : String)
    (st : EmbedState) :
    ∃ o st₂, embedTryBlock deps text task_type key st = (.ok o, st₂) := by
  unfold embedTryBlock
  split
  · split
    · exact ⟨none, _, rfl⟩
    · exact embedCacheWrite_never_raises _ _ _ _
  · exact embedCacheWrite_never_raises _ _ _ _

/-- Claim C8: blank (empty or whitespace-only) text makes single-text
embedding return absence immediately: no provider call, no cache read and
no cache write — the state, including every call counter, is returned
unchanged. -/
theorem C8_blank_text_no_op (deps : EmbedDeps) (text task_type : String)
    (st : EmbedState) (h : pyIsBlank text = true) :
    generate_embedding deps text task_type st = (.ok none, st) := by
  simp [generate_embedding, h]

/-- Witness for claim C8 on a whitespace-only text. -/
theorem C8_blank_text_no_op_witness :
    pyIsBlank "  " = true ∧
      generate_embedding ⟨true, fun _ _ _ => .ok [1], true, false, fun _ => []⟩
        "  " "retrieval_document" ⟨[], 0, 0, 0⟩ = (.ok none, ⟨[], 0, 0, 0⟩) :=
  ⟨by decide, C8_blank_text_no_op _ "  " "retrieval_document" _ (by decide)⟩

/-- Claim C5: with a caching collaborator present and healthy, the provider
present and succeeding on the text with a non-empty vector, and the key not
yet cached, two successive calls with the same text and task type return
the same vector both times and issue exactly one provider call in total. -/
theorem C5_embedding_idempotent_with_cache (deps : EmbedDeps)
    (text task_type : String) (st : EmbedState) (v : List ℚ)
    (hcache : deps.hasCache = true)
    (hnofail : deps.cacheGetFails = false)
    (hgem : deps.hasGemini = true)
    (hok : deps.gemini text embedding_model task_type = .ok v)
    (hv : v ≠ [])
    (hblank : pyIsBlank text = false)
    (hmiss : cacheLookup st (generate_cache_key text task_type) = none) :
    (generate_embedding deps text task_type st).1 = .ok (some v) ∧
    (generate_embedding deps text task_type
        (generate_embedding deps text task_type st).2).1 = .ok (some v) ∧
    (generate_embedding deps text task_type
        (generate_embedding deps text task_type st).2).2.providerCalls
      = st.providerCalls + 1 := by
  have h1 : generate_embedding deps text task_type st =
      (.ok (some v),
        { cache := (generate_cache_key text task_type, v) :: st.cache
          providerCalls := st.providerCalls + 1
          cacheGets := st.cacheGets + 1
          cacheSets := st.cacheSets + 1 }) := by
    simp [generate_embedding, hblank, hcache, hnofail, hmiss, embedTryBlock, embedCacheWrite, hgem, hok, hv]
  have h2 : generate_embedding deps text task_type
      { cache := (generate_cache_key text task_type, v) :: st.cache
        providerCalls := st.providerCalls + 1
        cacheGets := st.cacheGets + 1
        cacheSets := st.cacheSets + 1 } =
      (.ok (some v),
        { cache := (generate_cache_key text task_type, v) :: st.cache
          providerCalls := st.providerCalls + 1
          cacheGets := st.cacheGets + 2
          cacheSets := st.cacheSets + 1 }) := by
    have hl2 : cacheLookup
        { cache := (generate_cache_key text task_type, v) :: st.cache
          providerCalls := st.providerCalls + 1
          cacheGets := st.cacheGets + 1
          cacheSets := st.cacheSets + 1 }
        (generate_cache_key text task_type) = some v := by
      simp [cacheLookup]
    simp [generate_embedding, hblank, hcache, hnofail, hl2, hv]
  rw [h1]
  simp only [h2]
  simp

/-- Witness for claim C5 at a concrete provider and empty cache. -/
theorem C5_embedding_idempotent_with_cache_witness :
    (generate_embedding ⟨true, fun _ _ _ => .ok [1], true, false, fun _ => []⟩
        "x" "retrieval_document" ⟨[], 0, 0, 0⟩).1 = .ok (some [1]) ∧
    (generate_embedding ⟨true, fun _ _ _ => .ok [1], true, false, fun _ => []⟩
        "x" "retrieval_document"
        (generate_embedding ⟨true, fun _ _ _ => .ok [1], true, false, fun _ => []⟩
          "x" "retrieval_document" ⟨[], 0, 0, 0⟩).2).1 = .ok (some [1]) ∧
    (generate_embedding ⟨true, fun _ _ _ => .ok [1], true, false, fun _ => []⟩
        "x" "retrieval_document"
        (generate_embedding ⟨true, fun _ _ _ => .ok [1], true, false, fun _ => []⟩
          "x" "retrieval_document" ⟨[], 0, 0, 0⟩).2).2.providerCalls = 0 + 1 :=
  C5_embedding_idempotent_with_cache ⟨true, fun _ _ _ => .ok [1], true, false, fun _ => []⟩
    "x" "retrieval_document" ⟨[], 0, 0, 0⟩ [1] rfl rfl rfl rfl (by decide) (by decide) rfl

/-- Claim C4 (amended): read-path degradation.  For single-text embedding,
as long as the cache lookup itself does not raise, the operation never
raises — and a provider failure (with no cache hit available) yields
absence.  For similarity retrieval the whole body is guarded, so a failing
`count` or a failing index query yields the empty sequence.  (The original
claim said that **every** collaborator failure is caught; that is false
for the embedding cache lookup, which `generate_embedding` performs before
entering its `try` block, as the counterexample shows.) -/
theorem C4_read_path_degradation_amended :
    (∀ (deps : EmbedDeps) (text task_type : String) (st : EmbedState),
        deps.cacheGetFails = false →
        ∃ o st₂, generate_embedding deps text task_type st = (.ok o, st₂)) ∧
    (∀ (deps : EmbedDeps) (text task_type : String) (st : EmbedState),
        deps.cacheGetFails = false → deps.hasGemini = true →
        deps.gemini text embedding_model task_type = .exn →
        cacheLookup st (generate_cache_key text task_type) = none →
        (generate_embedding deps text task_type st).1 = .ok none) ∧
    (∀ (deps : RagDeps) (s r l : String) (lim : Nat),
        deps.count = .exn → find_similar_patterns deps s r l lim = ([], 0)) ∧
    (∀ (deps : RagDeps) (s r l : String) (lim n : Nat),
        deps.count = .ok n → 0 < n →
        deps.query s (Nat.min lim n)
            (if r = "" then ChromaFilter.byLang l
             else ChromaFilter.byRepoAndLang r l) = .exn →
        find_similar_patterns deps s r l lim = ([], 1)) := by
  refine ⟨?_, ?_, ?_, ?_⟩
  · intro deps text task_type st hnofail
    unfold generate_embedding
    split
    · exact ⟨none, st, rfl⟩
    · split
      · rw [hnofail]
        simp only [Bool.false_eq_true, if_false]
        split
        · split
          · exact ⟨_, _, rfl⟩
          · exact embedTryBlock_never_raises _ _ _ _ _
        · exact embedTryBlock_never_raises _ _ _ _ _
      · exact embedTryBlock_never_raises _ _ _ _ _
  · intro deps text task_type st hnofail hgem hexn hmiss
    by_cases hblank : pyIsBlank text = true
    · simp [generate_embedding, hblank]
    · by_cases hcache : deps.hasCache = true
      · simp [generate_embedding, eq_false_of_ne_true hblank, hcache, hnofail, hmiss,
          embedTryBlock, hgem, hexn]
      · simp [generate_embedding, eq_false_of_ne_true hblank,
          eq_false_of_ne_true hcache, embedTryBlock, hgem, hexn]
  · intro deps s r l lim h
    simp [find_similar_patterns, findSimilarBody, h]
  · intro deps s r l lim n hn hpos hq
    simp [find_similar_patterns, findSimilarBody, hn, Nat.pos_iff_ne_zero.mp hpos, hq]

/-- Witness for the amended claim C4 exercising all four parts at concrete
collaborators: a healthy cache with a failing provider, a retrieval whose
`count` raises, and a retrieval whose index query raises. -/
theorem C4_read_path_degradation_amended_witness :
    (∃ o st₂, generate_embedding ⟨true, fun _ _ _ => .ok [1], true, false, fun _ => []⟩
        "x" "retrieval_document" ⟨[], 0, 0, 0⟩ = (.ok o, st₂)) ∧
    (generate_embedding ⟨true, fun _ _ _ => .exn, true, false, fun _ => []⟩
        "x" "retrieval_document" ⟨[], 0, 0, 0⟩).1 = .ok none ∧
    find_similar_patterns ⟨.exn, fun _ _ _ => .ok ⟨none, none, none⟩⟩
        "c" "r" "java" 5 = ([], 0) ∧
    find_similar_patterns ⟨.ok 3, fun _ _ _ => .exn⟩ "c" "r" "java" 5 = ([], 1) :=
  ⟨C4_read_path_degradation_amended.1 _ "x" "retrieval_document" _ rfl,
   C4_read_path_degradation_amended.2.1 ⟨true, fun _ _ _ => .exn, true, false, fun _ => []⟩
     "x" "retrieval_document" ⟨[], 0, 0, 0⟩ rfl rfl rfl rfl,
   C4_read_path_degradation_amended.2.2.1 ⟨.exn, fun _ _ _ => .ok ⟨none, none, none⟩⟩
     "c" "r" "java" 5 rfl,
   C4_read_path_degradation_amended.2.2.2 ⟨.ok 3, fun _ _ _ => .exn⟩
     "c" "r" "java" 5 3 rfl (by decide) rfl⟩

/-- Claim C4, counterexample to the original statement: a cache whose
lookup raises makes `generate_embedding` raise to the caller — the lookup
happens before the `try` block, so this collaborator failure is not caught
at the component boundary. -/
theorem C4_counterexample :
    (generate_embedding ⟨true, fun _ _ _ => .ok [1], true, true, fun _ => []⟩
      "x" "retrieval_document" ⟨[], 0, 0, 0⟩).1 = .exn := by
  decide

/-! ### Empty-index retrieval (claim C9) -/

/-- Claim C9: when the backing vector index reports a count of zero,
`find_similar_patterns` returns the empty sequence and issues no index
query, for every snippet, repository id, language and limit. -/
theorem C9_empty_index_no_query (deps : RagDeps) (s r l : String) (lim : Nat)
    (h : deps.count = .ok 0) :
    find_similar_patterns deps s r l lim = ([], 0) := by
  simp [find_similar_patterns, findSimilarBody, h]

/-- Witness for claim C9 on a concrete empty index. -/
theorem C9_empty_index_no_query_witness :
    find_similar_patterns ⟨.ok 0, fun _ _ _ => .ok ⟨none, none, none⟩⟩
      "c" "r" "java" 5 = ([], 0) :=
  C9_empty_index_no_query ⟨.ok 0, fun _ _ _ => .ok ⟨none, none, none⟩⟩
    "c" "r" "java" 5 rfl

/-! ### Cosine similarity (claim C7) -/

theorem sumSq_nonneg (v : List ℝ) : 0 ≤ sumSq v := by
  induction v with
  | nil => simp [sumSq]
  | cons x t ih =>
    simp only [sumSq, List.map_cons, List.sum_cons] at ih ⊢
    exact add_nonneg (mul_self_nonneg x) ih

theorem sumSq_pos (v : List ℝ) (x : ℝ) (hx : x ∈ v) (hx0 : x ≠ 0) :
    0 < sumSq v := by
  induction v with
  | nil => cases hx
  | cons y t ih =>
    simp only [sumSq, List.map_cons, List.sum_cons]
    rcases List.mem_cons.mp hx with rfl | hxt
    · exact add_pos_of_pos_of_nonneg (mul_self_pos.mpr hx0) (sumSq_nonneg t)
    · exact add_pos_of_nonneg_of_pos (mul_self_nonneg y) (ih hxt)

theorem dotProd_self (v : List ℝ) : dotProd v v = sumSq v := by
  induction v with
  | nil => rfl
  | cons x t ih =>
    simp only [dotProd, sumSq, List.zipWith_cons_cons, List.map_cons, List.sum_cons] at ih ⊢
    rw [ih]

/-- Claim C7: `cosine_similarity` returns 0 when either input is empty or
the lengths differ; returns 0 when either vector's Euclidean norm is zero;
and returns exactly 1 on every non-zero vector paired with itself. -/
theorem C7_cosine_similarity_properties :
    (∀ v2, cosine_similarity [] v2 = 0) ∧
    (∀ v1, cosine_similarity v1 [] = 0) ∧
    (∀ v1 v2, v1.length ≠ v2.length → cosine_similarity v1 v2 = 0) ∧
    (∀ v1 v2, magnitude v1 = 0 ∨ magnitude v2 = 0 → cosine_similarity v1 v2 = 0) ∧
    (∀ v, (∃ x ∈ v, x ≠ 0) → cosine_similarity v v = 1) := by
  refine ⟨?_, ?_, ?_, ?_, ?_⟩
  · intro v2
    simp [cosine_similarity]
  · intro v1
    simp [cosine_similarity]
  · intro v1 v2 h
    rw [cosine_similarity, if_pos (Or.inr (Or.inr h))]
  · intro v1 v2 h
    by_cases hc : v1 = [] ∨ v2 = [] ∨ v1.length ≠ v2.length
    · rw [cosine_similarity, if_pos hc]
    · rw [cosine_similarity, if_neg hc, if_pos h]
  · rintro v ⟨x, hx, hx0⟩
    have hpos : 0 < sumSq v := sumSq_pos v x hx hx0
    have hvne : v ≠ [] := by
      rintro rfl
      cases hx
    have hmag : magnitude v ≠ 0 :=
      ne_of_gt (Real.sqrt_pos.mpr hpos)
    rw [cosine_similarity, if_neg (by push_neg; exact ⟨hvne, hvne, rfl⟩),
      if_neg (by push_neg; exact ⟨hmag, hmag⟩), dotProd_self,
      show magnitude v * magnitude v = sumSq v from Real.mul_self_sqrt hpos.le]
    exact div_self (ne_of_gt hpos)

/-- Witness for claim C7: a length mismatch, a zero vector, and a non-zero
vector paired with itself. -/
theorem C7_cosine_similarity_properties_witness :
    cosine_similarity [1] [1, 0] = 0 ∧ cosine_similarity [0] [0] = 0 ∧
      cosine_similarity [1, 0] [1, 0] = 1 := by
  refine ⟨C7_cosine_similarity_properties.2.2.1 [1] [1, 0] (by simp),
    C7_cosine_similarity_properties.2.2.2.1 [0] [0] (Or.inl ?_),
    C7_cosine_similarity_properties.2.2.2.2 [1, 0] ⟨1, by simp, one_ne_zero⟩⟩
  show magnitude [0] = 0
  simp [magnitude, sumSq]

end Codesage
